import Mathlib

/-!
Verification of the memory-management subsystem of a support-ticket assistant.

The Python source is shallowly embedded: Python floats become rationals (`ℚ`),
`datetime` instants become rationals counting seconds since the epoch (UTC),
dictionaries with a fixed key set become structures whose optional keys are
`Option` fields, and the external collaborators (LLM, embedding service,
Chroma's distance computation) become explicit function parameters.  Fallible
Python code is embedded with `Except`/`Option`.
-/

namespace AgenticMemory

/-! ## Salience scoring (utils/salience_scoring.py) -/

/-- The four-dimensional salience score returned by `compute_salience`. -/
structure SalienceScores where
  importance : ℚ
  novelty : ℚ
  contradiction : ℚ
  risk : ℚ
deriving Repr, DecidableEq

/-- The weighted combined score computed inside `SalienceScorer.should_write`:
`0.4 * importance + 0.3 * novelty + 0.2 * contradiction - 0.1 * risk`. -/
def combinedScore (s : SalienceScores) : ℚ :=
  (4 / 10) * s.importance + (3 / 10) * s.novelty
    + (2 / 10) * s.contradiction - (1 / 10) * s.risk

/-- `SalienceScorer.should_write(scores, threshold=0.6, explicit_trigger=False)`:
`True` on an explicit trigger, otherwise `True` iff the weighted combined
score reaches the threshold. -/
def should_write (scores : SalienceScores) (threshold : ℚ)
    (explicit_trigger : Bool) : Bool :=
  if explicit_trigger then true
  else decide (combinedScore scores ≥ threshold)

/-! ## Timestamps

Python stores timestamps as ISO-8601 strings and re-parses them with
`datetime.fromisoformat`.  The embedding keeps the three observable outcomes
of reading such a field: the field is missing/empty (`dict.get` gave a falsy
value), the string does not parse (or mixes aware/naive datetimes so that the
subtraction in the `try` block raises), or it parses to an instant, modelled
as rational seconds since the epoch. -/

/-- Observable content of a stored timestamp field. -/
inductive TimestampField where
  | missing : TimestampField
  | unparsable : String → TimestampField
  | parsed : ℚ → TimestampField
deriving Repr, DecidableEq

/-! ## Escalation rules (memory_stores/procedural_memory.py) -/

/-- One entry of `ProceduralMemory.ESCALATION_RULES`. -/
structure EscalationRule where
  threshold : String
  action : String
  message : String
deriving Repr, DecidableEq

/-- `ESCALATION_RULES["critical"]`. -/
def ESCALATION_RULES.critical : EscalationRule :=
  { threshold := "priority == 'Critical' or status == 'Escalated'"
    action := "escalate_to_level2"
    message := "Issue escalated to Level 2 support due to critical priority." }

/-- `ESCALATION_RULES["high_priority_3_days"]`. -/
def ESCALATION_RULES.high_priority_3_days : EscalationRule :=
  { threshold := "priority == 'High' and age_days >= 3"
    action := "escalate_to_level2"
    message := "High priority ticket open for 3+ days, escalating." }

/-- A ticket dictionary as produced by the ticket backing store.  Every field
the memory core reads is optional (`dict.get`). -/
structure Ticket where
  priority : Option String := none
  status : Option String := none
  created_at : TimestampField := .missing
  device : Option String := none
  customer_name : Option String := none
deriving Repr, DecidableEq

/-- `timedelta.days` of `now - created`, both in seconds: floor division of
the difference by 86400. -/
def ageDays (now created : ℚ) : ℤ :=
  ((now - created) / 86400).floor

/-- `ProceduralMemory.get_escalation_decision(ticket)`, with the current time
passed explicitly.  `ticket.get("priority", "Medium")` etc. become `getD`;
the `try`/`except` around `fromisoformat` and the timedelta is the
`TimestampField` match. -/
def get_escalation_decision (now : ℚ) (ticket : Ticket) : Option EscalationRule :=
  let priority := ticket.priority.getD "Medium"
  let status := ticket.status.getD "New"
  if priority = "Critical" ∨ status = "Escalated" then
    some ESCALATION_RULES.critical
  else if priority = "High" then
    match ticket.created_at with
    | .parsed created =>
        if ageDays now created ≥ 3 then some ESCALATION_RULES.high_priority_3_days
        else none
    | _ => none
  else none

/-! ## Chroma-backed vector stores
(memory_stores/semantic_memory.py, memory_stores/episodic_memory.py)

A Chroma collection is a list of records addressed by a string id; `upsert`
replaces the record with a matching id or appends a new one.  The embedding
service (`embeddings.embed_query`) and Chroma's cosine-distance computation
are external collaborators and become the parameters `embed` and `dist`. -/

/-- Metadata attached to a stored record.  `put` always writes the keys
`namespace`, `key`, `timestamp`, `type` (and `salience` for episodic
records); the only caller-supplied extra key used anywhere in the subsystem
is `source` (written by conflict resolution). -/
structure RecordMeta where
  source : Option String
  namespace_ : String
  key : String
  timestamp : TimestampField
  type_ : String
  salience : Option ℚ
deriving Repr, DecidableEq

/-- One record of a Chroma collection. -/
structure ChromaRecord where
  id : String
  embedding : List ℚ
  document : String
  metadata : RecordMeta
deriving Repr, DecidableEq

/-- `collection.upsert(ids=[r.id], ...)`: overwrite the record with the same
id if present, otherwise append. -/
def upsertRecord (c : List ChromaRecord) (r : ChromaRecord) : List ChromaRecord :=
  if ∃ x ∈ c, x.id = r.id then
    c.map (fun x => if x.id = r.id then r else x)
  else c ++ [r]

/-- `SemanticMemoryStore.put(namespace, key, content, metadata)`: build
`doc_id = f"{namespace}:{key}"`, embed the content, stamp the metadata and
upsert.  The caller-supplied metadata is its `source` key (the only extra key
any caller passes); `now` is the instant `datetime.now(timezone.utc)` whose
isoformat string is stored (it re-parses to the same instant, hence
`.parsed now`). -/
def SemanticMemoryStore.put (c : List ChromaRecord) (embed : String → List ℚ)
    (now : ℚ) (ns key content : String) (source : Option String) :
    List ChromaRecord :=
  let doc_id := ns ++ ":" ++ key
  upsertRecord c
    { id := doc_id, embedding := embed content, document := content
      metadata := { source := source, namespace_ := ns, key := key
                    timestamp := .parsed now, type_ := "semantic"
                    salience := none } }

/-- `EpisodicMemoryStore.put(namespace, key, content, metadata, salience_score)`:
same upsert with `type = "episodic"` and the caller's `salience_score` stored
in the metadata. -/
def EpisodicMemoryStore.put (c : List ChromaRecord) (embed : String → List ℚ)
    (now : ℚ) (ns key content : String) (source : Option String)
    (salience_score : ℚ) : List ChromaRecord :=
  let doc_id := ns ++ ":" ++ key
  upsertRecord c
    { id := doc_id, embedding := embed content, document := content
      metadata := { source := source, namespace_ := ns, key := key
                    timestamp := .parsed now, type_ := "episodic"
                    salience := some salience_score } }

/-- `collection.query(query_embeddings=[e], n_results=n, where={"namespace": ns})`:
the records whose metadata namespace equals `ns`, in ascending order of
distance to the query embedding, truncated to `n` results. -/
def chromaQuery (c : List ChromaRecord) (dist : List ℚ → List ℚ → ℚ)
    (query_embedding : List ℚ) (n_results : Nat) (ns : String) :
    List ChromaRecord :=
  ((c.filter (fun r => r.metadata.namespace_ = ns)).insertionSort
    (fun a b => dist query_embedding a.embedding ≤ dist query_embedding b.embedding)).take
    n_results

/-- One element of the list returned by `SemanticMemoryStore.search`. -/
structure SemanticSearchResult where
  id : String
  content : String
  metadata : RecordMeta
  distance : ℚ
deriving Repr, DecidableEq

/-- `SemanticMemoryStore.search(namespace, query, top_k, filters)` at the
default `filters=None`, so that `where = {"namespace": namespace}` (no claim
exercises the optional metadata filters).  Chroma returns distances, which
the node passes through. -/
def SemanticMemoryStore.search (c : List ChromaRecord)
    (dist : List ℚ → List ℚ → ℚ) (embed : String → List ℚ)
    (ns query : String) (top_k : Nat) : List SemanticSearchResult :=
  let query_embedding := embed query
  let results := chromaQuery c dist query_embedding top_k ns
  results.map (fun r =>
    { id := r.id, content := r.document, metadata := r.metadata
      distance := dist query_embedding r.embedding })

/-- One element of the list returned by `EpisodicMemoryStore.search`. -/
structure EpisodicSearchResult where
  id : String
  content : String
  metadata : RecordMeta
  similarity : ℚ
  recency_score : ℚ
  combined_score : ℚ
deriving Repr, DecidableEq

/-- The recency score computed inside `EpisodicMemoryStore.search`: `0` when
the timestamp field is empty, `0` when `fromisoformat` raises (the
`try`/`except: pass` leaves the initial value), otherwise
`1 / (1 + age_days / 30)` with `age_days` the exact fractional age in days. -/
def recencyScore (now : ℚ) (ts : TimestampField) : ℚ :=
  match ts with
  | .missing => 0
  | .unparsable _ => 0
  | .parsed t => 1 / (1 + ((now - t) / 86400) / 30)

/-- `EpisodicMemoryStore.search(namespace, query, top_k, recency_weight)`:
over-fetch `top_k * 2` candidates scoped to the namespace, score each with
`combined = (1 - w) * similarity + w * recency`, stable-sort descending by
combined score and keep the first `top_k`. -/
def EpisodicMemoryStore.search (c : List ChromaRecord)
    (dist : List ℚ → List ℚ → ℚ) (embed : String → List ℚ) (now : ℚ)
    (ns query : String) (top_k : Nat) (recency_weight : ℚ) :
    List EpisodicSearchResult :=
  let query_embedding := embed query
  let results := chromaQuery c dist query_embedding (top_k * 2) ns
  let memories := results.map (fun r =>
    let recency_score := recencyScore now r.metadata.timestamp
    let similarity := 1 - dist query_embedding r.embedding
    let combined_score :=
      (1 - recency_weight) * similarity + recency_weight * recency_score
    { id := r.id, content := r.document, metadata := r.metadata
      similarity := similarity, recency_score := recency_score
      combined_score := combined_score })
  (memories.insertionSort (fun a b => b.combined_score ≤ a.combined_score)).take top_k

/-- `EpisodicMemoryStore.search` at its default arguments
`top_k=5, recency_weight=0.3`. -/
def EpisodicMemoryStore.searchDefault (c : List ChromaRecord)
    (dist : List ℚ → List ℚ → ℚ) (embed : String → List ℚ) (now : ℚ)
    (ns query : String) : List EpisodicSearchResult :=
  EpisodicMemoryStore.search c dist embed now ns query 5 (3 / 10)

/-- Modelled from the spec's words (§4.3), for the refinement claim C2 only:
"retrieve `2×top_k` candidates by similarity, compute for each a recency score
`r = 1 / (1 + age_days/30)` (age measured from stored timestamp to now;
unparsable timestamp → r=0), combine as `score = (1-w)*similarity + w*r`,
sort descending by combined score, truncate to `top_k`". -/
def episodicSearchSpec (c : List ChromaRecord)
    (dist : List ℚ → List ℚ → ℚ) (embed : String → List ℚ) (now : ℚ)
    (ns query : String) (top_k : Nat) (w : ℚ) : List EpisodicSearchResult :=
  let candidates := chromaQuery c dist (embed query) (2 * top_k) ns
  let scored := candidates.map (fun r =>
    let sim := 1 - dist (embed query) r.embedding
    let rec_score :=
      match r.metadata.timestamp with
      | .missing => 0
      | .unparsable s => 0
      | .parsed t => 1 / (1 + ((now - t) / 86400) / 30)
    { id := r.id, content := r.document, metadata := r.metadata
      similarity := sim, recency_score := rec_score
      combined_score := (1 - w) * sim + w * rec_score })
  (scored.insertionSort (fun a b => b.combined_score ≤ a.combined_score)).take top_k

end AgenticMemory

namespace AgenticMemory

/-! ## Procedures and the procedural guard
(memory_stores/procedural_memory.py, nodes/procedural_guard.py) -/

/-- One entry of `ProceduralMemory.PROCEDURES`. -/
structure Procedure where
  name : String
  steps : List String
  allowed_tools : List String
  escalation_rules : List String
deriving Repr, DecidableEq

/-- `ProceduralMemory.DIAGNOSTIC_ORDER`. -/
def DIAGNOSTIC_ORDER : List String :=
  [ "1. Check ticket status and priority"
  , "2. Retrieve relevant memories (semantic + episodic)"
  , "3. If device info missing, ask for device model"
  , "4. If issue unclear, ask for specific symptoms"
  , "5. Suggest troubleshooting steps based on issue type"
  , "6. If unresolved after 2 attempts, escalate" ]

/-- `PROCEDURES["standard_support"]`. -/
def standard_support_procedure : Procedure :=
  { name := "Standard Support Flow"
    steps := DIAGNOSTIC_ORDER
    allowed_tools := ["create_ticket", "update_ticket", "lookup_ticket"]
    escalation_rules := ["critical", "high_priority_3_days"] }

/-- `PROCEDURES["quick_resolution"]`. -/
def quick_resolution_procedure : Procedure :=
  { name := "Quick Resolution Flow"
    steps :=
      [ "1. Check if issue matches known quick fixes"
      , "2. Apply quick fix if available"
      , "3. If not, escalate to standard flow" ]
    allowed_tools := ["lookup_ticket"]
    escalation_rules := [] }

/-- `PROCEDURES["escalated_support"]`. -/
def escalated_support_procedure : Procedure :=
  { name := "Escalated Support Flow"
    steps :=
      [ "1. Review escalation reason"
      , "2. Gather all context (memories + ticket history)"
      , "3. Apply Level 2 diagnostic procedures"
      , "4. Document resolution path" ]
    allowed_tools := ["lookup_ticket", "update_ticket"]
    escalation_rules := [] }

/-- `ProceduralMemory.PROCEDURES` as a lookup (`dict.get`). -/
def PROCEDURES (pid : String) : Option Procedure :=
  if pid = "standard_support" then some standard_support_procedure
  else if pid = "quick_resolution" then some quick_resolution_procedure
  else if pid = "escalated_support" then some escalated_support_procedure
  else none

/-- The `tool_result` dictionary produced by the tool node: the keys the
memory subsystem reads are the top-level `status` and `ticket_id` and the
nested authoritative `ticket`.  An absent key is `none`. -/
structure ToolResult where
  ticket : Option Ticket
  ticket_id : Option String
  status : Option String
deriving Repr, DecidableEq

/-- The slice of the shared LangGraph state dictionary that
`procedural_guard` reads.  An absent key is `none`. -/
structure GuardState where
  selected_procedure : Option String
  tool_result : Option ToolResult
deriving Repr, DecidableEq

/-- The guard LLM's tool plan after `json.loads` on the extracted content:
`tool` and `arguments` model `plan.get("tool", "")` and
`plan.get("arguments", {})` (absent or JSON-null key → `none`).  A reply on
which `json.loads` (or the subsequent attribute access) raises is modelled by
passing `none` for the whole plan. -/
structure GuardPlan where
  tool : Option String
  arguments : Option (List (String × String))
deriving Repr, DecidableEq

/-- The tool-selection block of `procedural_guard`: `plan_tool` starts as
`"lookup_ticket"`; on a parsed plan an in-set selection is kept, an
out-of-set one falls back to `allowed_tools[0]` when `allowed_tools` is
non-empty; the `except` path also falls back to `allowed_tools[0]` when
non-empty. -/
def guardPlanTool (llm_plan : Option GuardPlan) (allowed_tools : List String) :
    String :=
  match llm_plan with
  | some plan =>
      let selected_tool := plan.tool.getD ""
      if selected_tool ∈ allowed_tools then selected_tool
      else if allowed_tools ≠ [] then allowed_tools.headD "lookup_ticket"
      else "lookup_ticket"
  | none =>
      if allowed_tools ≠ [] then allowed_tools.headD "lookup_ticket"
      else "lookup_ticket"

/-- The argument-extraction part of the same block: `plan.get("arguments", {})`
with `None` replaced by `{}`, and `{}` on the `except` path. -/
def guardPlanArguments (llm_plan : Option GuardPlan) : List (String × String) :=
  match llm_plan with
  | some plan => plan.arguments.getD []
  | none => []

/-- The escalation check inside `procedural_guard`: only when the state holds
a `tool_result` containing a `ticket` key is `get_escalation_decision`
consulted. -/
def guardEscalation (state : GuardState) (now : ℚ) : Option EscalationRule :=
  match state.tool_result with
  | some tr =>
      match tr.ticket with
      | some ticket => get_escalation_decision now ticket
      | none => none
  | none => none

/-- The dictionary returned by `procedural_guard` (the `messages` entries,
which only carry prompt text for downstream nodes, are not modelled).
`selected_procedure := none` models the key being absent from the returned
dictionary, so that the LangGraph merge leaves the state's value unchanged. -/
structure GuardOutput where
  selected_procedure : Option String
  allowed_tools : List String
  escalation_info : Option EscalationRule
  planner_action : String
  planner_tool : String
  planner_arguments : List (String × String)
deriving Repr, DecidableEq

/-- `procedural_guard(state)`, with the guard LLM's parsed reply and the
current time passed explicitly. -/
def procedural_guard (state : GuardState) (llm_plan : Option GuardPlan)
    (now : ℚ) : GuardOutput :=
  let selected_procedure := state.selected_procedure.getD "standard_support"
  let procedure := (PROCEDURES selected_procedure).getD standard_support_procedure
  let allowed_tools := procedure.allowed_tools
  let plan_tool := guardPlanTool llm_plan allowed_tools
  let tool_arguments := guardPlanArguments llm_plan
  match guardEscalation state now with
  | some info =>
      { selected_procedure := some "escalated_support"
        allowed_tools := escalated_support_procedure.allowed_tools
        escalation_info := some info
        planner_action := "tool"
        planner_tool := plan_tool
        planner_arguments := tool_arguments }
  | none =>
      { selected_procedure := none
        allowed_tools := allowed_tools
        escalation_info := none
        planner_action := "tool"
        planner_tool := plan_tool
        planner_arguments := tool_arguments }

/-- The LangGraph merge of the guard's returned dictionary into the shared
state: a returned `selected_procedure` key overwrites, an absent key leaves
the previous value. -/
def applyGuardOutput (state : GuardState) (out : GuardOutput) : GuardState :=
  { state with
      selected_procedure :=
        match out.selected_procedure with
        | some p => some p
        | none => state.selected_procedure }

/-! ## Salience-gated memory write (nodes/salience_gated_memory_write.py) -/

/-- The explicit-trigger detection at the top of the node: a top-level
`ticket_id` with status `created`/`updated`, or a nested ticket with status
`Escalated`/`Resolved`. -/
def explicitTrigger (tool_result : Option ToolResult) : Bool :=
  match tool_result with
  | none => false
  | some tr =>
      (tr.ticket_id.isSome &&
        (tr.status = some "created" || tr.status = some "updated")) ||
      (match tr.ticket with
       | some t => t.status = some "Escalated" || t.status = some "Resolved"
       | none => false)

/-- The extraction LLM's reply after `json.loads`: the two candidate lists
(`memories.get("semantic", [])` and `memories.get("episodic", [])`, an
absent key giving `[]`). A reply whose extracted content fails to load as
JSON is modelled by passing `none` for the whole extraction. -/
structure Extraction where
  semantic : List String
  episodic : List String
deriving Repr, DecidableEq

/-- Python's `str.strip()` with no arguments: remove leading and trailing
whitespace characters. -/
def pyStrip (s : String) : String :=
  ⟨((s.data.dropWhile Char.isWhitespace).reverse.dropWhile Char.isWhitespace).reverse⟩

/-- The semantic write loop of the node, over the enumerated candidate
facts: a fact whose stripped text is longer than 10 characters is upserted
and counted, any other fact is skipped.  The regex-based deterministic-key
extraction with its `uuid4` fallback is abstracted as the key supply
`semKey` (indexed so that distinct iterations can draw distinct fresh
keys); which key is chosen never decides whether a write occurs. -/
def semanticWriteLoop (embed : String → List ℚ) (now : ℚ) (ns : String)
    (semKey : Nat → String → String) :
    List (Nat × String) → List ChromaRecord → Nat → List ChromaRecord × Nat
  | [], store, count => (store, count)
  | (i, fact) :: rest, store, count =>
      if (pyStrip fact).length > 10 then
        semanticWriteLoop embed now ns semKey rest
          (SemanticMemoryStore.put store embed now ns (semKey i fact) fact none)
          (count + 1)
      else
        semanticWriteLoop embed now ns semKey rest store count

/-- The episodic write loop of the node: same length gate, always a fresh
key (`episodic_{uuid4...}`, abstracted as the supply `epiKey`), and the
turn's `importance` stored as the record's salience. -/
def episodicWriteLoop (embed : String → List ℚ) (now : ℚ) (ns : String)
    (epiKey : Nat → String) (salience : ℚ) :
    List (Nat × String) → List ChromaRecord → Nat → List ChromaRecord × Nat
  | [], store, count => (store, count)
  | (i, experience) :: rest, store, count =>
      if (pyStrip experience).length > 10 then
        episodicWriteLoop embed now ns epiKey salience rest
          (EpisodicMemoryStore.put store embed now ns (epiKey i) experience none
            salience)
          (count + 1)
      else
        episodicWriteLoop embed now ns epiKey salience rest store count

/-- The dictionary returned by `salience_gated_memory_write`; `none` counts
model keys absent from the early (`not should_write`) return. -/
structure MemoryWriteOutput where
  salience_scores : SalienceScores
  memory_written : Bool
  semantic_written_count : Option Nat
  episodic_written_count : Option Nat
deriving Repr, DecidableEq

/-- `salience_gated_memory_write(state)`, with the scorer's result and the
extraction LLM's parse outcome passed explicitly.  When the gate passes and
`json.loads` on the extracted content raises (`parsed = none`), the
`except ...: pass` swallows that exception, but the `return` statement then
reads the locals `semantic_count`/`episodic_count`, which are assigned only
inside the `try` block after the `json.loads` call and are therefore still
unassigned — CPython raises `UnboundLocalError` there, and nothing catches
it, so the node propagates the error; this is the `.error` branch. -/
def salience_gated_memory_write (tool_result : Option ToolResult)
    (scores : SalienceScores) (parsed : Option Extraction)
    (semStore epiStore : List ChromaRecord) (embed : String → List ℚ)
    (now : ℚ) (ns : String) (semKey : Nat → String → String)
    (epiKey : Nat → String) :
    Except String (List ChromaRecord × List ChromaRecord × MemoryWriteOutput) :=
  let explicit_trigger := explicitTrigger tool_result
  if should_write scores (6 / 10) explicit_trigger = false then
    .ok (semStore, epiStore,
      { salience_scores := scores, memory_written := false
        semantic_written_count := none, episodic_written_count := none })
  else
    match parsed with
    | some memories =>
        let sem := semanticWriteLoop embed now ns semKey
          memories.semantic.enum semStore 0
        let epi := episodicWriteLoop embed now ns epiKey scores.importance
          memories.episodic.enum epiStore 0
        .ok (sem.1, epi.1,
          { salience_scores := scores, memory_written := true
            semantic_written_count := some sem.2
            episodic_written_count := some epi.2 })
    | none =>
        .error "UnboundLocalError: local variable semantic_count referenced before assignment"

/-! ## Conflict resolution (nodes/conflict_resolution.py) -/

/-- The verified-fact strings `conflict_resolution` derives from the
authoritative ticket, in source order: existence (when `ticket_id` is
truthy), device (present, truthy and not `"-"`), customer name (truthy),
status (truthy). -/
def verifiedFacts (ticket : Ticket) (ticket_id : String) : List String :=
  (if ticket_id ≠ "" then ["Customer has active ticket " ++ ticket_id] else [])
  ++ (match ticket.device with
      | some d => if d ≠ "" ∧ d ≠ "-" then ["Customer device: " ++ d] else []
      | none => [])
  ++ (match ticket.customer_name with
      | some n => if n ≠ "" then ["Customer name: " ++ n] else []
      | none => [])
  ++ (match ticket.status with
      | some s => if s ≠ "" then ["Ticket " ++ ticket_id ++ " status: " ++ s] else []
      | none => [])

/-- The semantic-store effect of `conflict_resolution(state)`: when the tool
result holds a ticket, each verified fact is upserted under
`ticket_{ticket_id}_verified` when `ticket_id` is truthy, else under a fresh
`tool_verified_{uuid4...}` key (the uuid supply is abstracted as `uuidKey`,
indexed per loop iteration).  The conflict scan and the returned
`SystemMessage` only produce message text and never touch the store, so they
are not modelled. -/
def conflict_resolution (st : List ChromaRecord) (embed : String → List ℚ)
    (now : ℚ) (ns : String) (tool_result : Option ToolResult)
    (uuidKey : Nat → String) : List ChromaRecord :=
  match tool_result with
  | none => st
  | some tr =>
      match tr.ticket with
      | none => st
      | some ticket =>
          let ticket_id := tr.ticket_id.getD ""
          (verifiedFacts ticket ticket_id).enum.foldl
            (fun acc p =>
              let key :=
                if ticket_id ≠ "" then "ticket_" ++ ticket_id ++ "_verified"
                else "tool_verified_" ++ uuidKey p.1
              SemanticMemoryStore.put acc embed now ns key p.2
                (some "tool_verified"))
            st

/-! ## Theorems for C1 and C3 -/

/-- Claim C1: for every score dictionary with components in `[0,1]` and every
threshold, `should_write(scores, threshold, explicit_trigger)` returns `True`
iff `explicit_trigger` is true or
`0.4*importance + 0.3*novelty + 0.2*contradiction - 0.1*risk ≥ threshold`;
in particular it returns `True` at the exact boundary and for every score
vector whenever `explicit_trigger` is true. -/
theorem C1_should_write_iff (s : SalienceScores) (threshold : ℚ)
    (explicit_trigger : Bool)
    (h : 0 ≤ s.importance ∧ s.importance ≤ 1 ∧ 0 ≤ s.novelty ∧ s.novelty ≤ 1 ∧
         0 ≤ s.contradiction ∧ s.contradiction ≤ 1 ∧ 0 ≤ s.risk ∧ s.risk ≤ 1) :
    should_write s threshold explicit_trigger = true ↔
      (explicit_trigger = true ∨ combinedScore s ≥ threshold) := by
  unfold should_write
  cases explicit_trigger <;> simp

/-- Witness for C1 at the exact boundary: scores `(0.5, 0.5, 0, 0)` with
threshold `0.35` give `combined = 0.35 = threshold` and `should_write` is
`True` even without an explicit trigger. -/
theorem C1_should_write_iff_witness :
    (0 ≤ (0.35 : ℚ)) ∧
    (should_write ⟨1/2, 1/2, 0, 0⟩ (35/100) false = true ↔
      (false = true ∨ combinedScore ⟨1/2, 1/2, 0, 0⟩ ≥ (35/100))) := by
  refine ⟨by norm_num, C1_should_write_iff ⟨1/2, 1/2, 0, 0⟩ (35/100) false ?_⟩
  refine ⟨by norm_num, by norm_num, by norm_num, by norm_num,
    by norm_num, by norm_num, by norm_num, by norm_num⟩

/-- Claim C3: `get_escalation_decision` evaluates the escalation predicates in
fixed priority order: it returns the `critical` rule iff
`priority == "Critical"` or `status == "Escalated"`; otherwise it returns the
`high_priority_3_days` rule iff `priority == "High"` and the ticket's age in
days since `created_at` is at least 3; otherwise no escalation.  Stated for
tickets whose `created_at` parses, so that the age is defined. -/
theorem C3_escalation_decision (now created : ℚ) (t : Ticket)
    (hts : t.created_at = .parsed created) :
    (get_escalation_decision now t = some ESCALATION_RULES.critical ↔
      (t.priority.getD "Medium" = "Critical" ∨ t.status.getD "New" = "Escalated")) ∧
    (¬ (t.priority.getD "Medium" = "Critical" ∨ t.status.getD "New" = "Escalated") →
      (get_escalation_decision now t = some ESCALATION_RULES.high_priority_3_days ↔
        (t.priority.getD "Medium" = "High" ∧ ageDays now created ≥ 3))) ∧
    (¬ (t.priority.getD "Medium" = "Critical" ∨ t.status.getD "New" = "Escalated") →
     ¬ (t.priority.getD "Medium" = "High" ∧ ageDays now created ≥ 3) →
      get_escalation_decision now t = none) := by
  unfold get_escalation_decision
  rw [hts]
  refine ⟨?_, ?_, ?_⟩
  · constructor
    · intro hres
      by_contra hcond
      simp only [if_neg hcond] at hres
      by_cases hp : t.priority.getD "Medium" = "High"
      · simp only [if_pos hp] at hres
        by_cases hage : ageDays now created ≥ 3
        · simp only [if_pos hage] at hres
          exact absurd (Option.some.inj hres)
            (by simp [ESCALATION_RULES.high_priority_3_days, ESCALATION_RULES.critical])
        · simp [if_neg hage] at hres
      · simp [if_neg hp] at hres
    · intro hcond
      simp [if_pos hcond]
  · intro hcond
    simp only [if_neg hcond]
    constructor
    · intro hres
      by_cases hp : t.priority.getD "Medium" = "High"
      · refine ⟨hp, ?_⟩
        simp only [if_pos hp] at hres
        by_cases hage : ageDays now created ≥ 3
        · exact hage
        · simp [if_neg hage] at hres
      · simp [if_neg hp] at hres
    · rintro ⟨hp, hage⟩
      simp [if_pos hp, if_pos hage]
  · intro hcond hp
    simp only [if_neg hcond]
    by_cases hph : t.priority.getD "Medium" = "High"
    · have hage : ¬ ageDays now created ≥ 3 := fun hg => hp ⟨hph, hg⟩
      simp [if_pos hph, if_neg hage]
    · simp [if_neg hph]

/-- Witness for C3, the claim's scenario: a `High`-priority ticket created 4
days ago (now = 4·86400 seconds, created = 0) yields the
`high_priority_3_days` rule; the same ticket created 1 day ago yields no
escalation. -/
theorem C3_escalation_decision_witness :
    (get_escalation_decision (4 * 86400) ⟨some "High", some "Open", .parsed 0, none, none⟩
      = some ESCALATION_RULES.high_priority_3_days) ∧
    (get_escalation_decision (1 * 86400) ⟨some "High", some "Open", .parsed 0, none, none⟩
      = none) :=
  ⟨((C3_escalation_decision (4 * 86400) 0
      ⟨some "High", some "Open", .parsed 0, none, none⟩ rfl).2.1
        (by decide)).mpr
      ⟨by decide, by norm_num [ageDays, Rat.floor_def']⟩,
   (C3_escalation_decision (1 * 86400) 0
      ⟨some "High", some "Open", .parsed 0, none, none⟩ rfl).2.2
        (by decide) (by norm_num [ageDays, Rat.floor_def'])⟩

/-! ## Helper lemmas about the Chroma upsert -/

/-- Replacing every record carrying the target id and then filtering for that
id yields one copy of the new record per previous match. -/
theorem filter_map_replace (c : List ChromaRecord) (r : ChromaRecord) :
    ((c.map (fun x => if x.id = r.id then r else x)).filter
        (fun y => y.id = r.id))
      = (c.filter (fun y => y.id = r.id)).map (fun _ => r) := by
  induction c with
  | nil => rfl
  | cons a c ih =>
    by_cases ha : a.id = r.id
    · simp only [List.map_cons, if_pos ha, List.filter_cons]
      simp [ha, ih]
    · simp only [List.map_cons, if_neg ha, List.filter_cons]
      simp [ha, ih]

/-- After an upsert there is exactly one record under the upserted id,
provided the collection held at most one before (Chroma ids are unique). -/
theorem upsertRecord_filter_length (c : List ChromaRecord) (r : ChromaRecord)
    (h : (c.filter (fun y => y.id = r.id)).length ≤ 1) :
    ((upsertRecord c r).filter (fun y => y.id = r.id)).length = 1 := by
  unfold upsertRecord
  by_cases hex : ∃ x ∈ c, x.id = r.id
  · rw [if_pos hex, filter_map_replace, List.length_map]
    obtain ⟨x, hx, hid⟩ := hex
    have hmem : x ∈ c.filter (fun y => y.id = r.id) :=
      List.mem_filter.mpr ⟨hx, decide_eq_true hid⟩
    have h1 : 1 ≤ (c.filter (fun y => y.id = r.id)).length :=
      List.length_pos.mpr (List.ne_nil_of_mem hmem)
    exact le_antisymm h h1
  · rw [if_neg hex, List.filter_append]
    have hnil : c.filter (fun y => y.id = r.id) = [] := by
      rw [List.filter_eq_nil]
      intro a ha
      simp only [decide_eq_true_eq]
      exact fun hid => hex ⟨a, ha, hid⟩
    simp [hnil]

/-- Every record of the upserted collection that carries the upserted id is
the upserted record. -/
theorem mem_upsertRecord_id (c : List ChromaRecord) (r x : ChromaRecord)
    (hx : x ∈ upsertRecord c r) (hid : x.id = r.id) : x = r := by
  unfold upsertRecord at hx
  by_cases hex : ∃ y ∈ c, y.id = r.id
  · rw [if_pos hex] at hx
    obtain ⟨a, _, hax⟩ := List.mem_map.mp hx
    by_cases ha : a.id = r.id
    · rw [if_pos ha] at hax; exact hax.symm
    · rw [if_neg ha] at hax
      exact absurd (hax ▸ hid) ha
  · rw [if_neg hex] at hx
    rcases List.mem_append.mp hx with hc | hr
    · exact absurd ⟨x, hc, hid⟩ hex
    · exact List.mem_singleton.mp hr

/-- Every record of the upserted collection is the upserted record or was
already stored. -/
theorem mem_upsertRecord (c : List ChromaRecord) (r x : ChromaRecord)
    (hx : x ∈ upsertRecord c r) : x = r ∨ x ∈ c := by
  unfold upsertRecord at hx
  by_cases hex : ∃ y ∈ c, y.id = r.id
  · rw [if_pos hex] at hx
    obtain ⟨a, ha, hax⟩ := List.mem_map.mp hx
    by_cases hid : a.id = r.id
    · rw [if_pos hid] at hax; exact .inl hax.symm
    · rw [if_neg hid] at hax; exact .inr (hax ▸ ha)
  · rw [if_neg hex] at hx
    rcases List.mem_append.mp hx with hc | hr
    · exact .inr hc
    · exact .inl (List.mem_singleton.mp hr)

/-- Every record returned by the namespace-scoped Chroma query carries the
namespace of the query. -/
theorem mem_chromaQuery_namespace (c : List ChromaRecord)
    (dist : List ℚ → List ℚ → ℚ) (e : List ℚ) (n : Nat) (ns : String)
    (x : ChromaRecord) (hx : x ∈ chromaQuery c dist e n ns) :
    x.metadata.namespace_ = ns := by
  unfold chromaQuery at hx
  have hx1 := (List.take_sublist _ _).subset hx
  rw [List.mem_insertionSort] at hx1
  exact of_decide_eq_true (List.mem_filter.mp hx1).2

/-! ## Theorems for C2, C5 and C6 -/

/-- Claim C2: episodic `search(namespace, query, top_k, recency_weight)`
implements exactly the spec's algorithm: over-fetch `2×top_k` candidates by
similarity scoped to the namespace, score each with
`r = 1/(1 + age_days/30)` (missing or unparsable timestamp → `r = 0`),
combine as `(1-w)*similarity + w*r`, sort descending by combined score, keep
the first `top_k`; the default weight is `w = 0.3` (and `top_k = 5`). -/
theorem C2_episodic_search_algorithm (c : List ChromaRecord)
    (dist : List ℚ → List ℚ → ℚ) (embed : String → List ℚ) (now : ℚ)
    (ns query : String) (top_k : Nat) (w : ℚ) :
    EpisodicMemoryStore.search c dist embed now ns query top_k w
      = episodicSearchSpec c dist embed now ns query top_k w ∧
    List.Sorted (fun a b => b.combined_score ≤ a.combined_score)
      (EpisodicMemoryStore.search c dist embed now ns query top_k w) ∧
    EpisodicMemoryStore.searchDefault c dist embed now ns query
      = EpisodicMemoryStore.search c dist embed now ns query 5 (3 / 10) := by
  refine ⟨?_, ?_, rfl⟩
  · unfold EpisodicMemoryStore.search episodicSearchSpec recencyScore
    rw [Nat.mul_comm top_k 2]
  · haveI : IsTotal EpisodicSearchResult
        (fun a b => b.combined_score ≤ a.combined_score) :=
      ⟨fun a b => le_total b.combined_score a.combined_score⟩
    haveI : IsTrans EpisodicSearchResult
        (fun a b => b.combined_score ≤ a.combined_score) :=
      ⟨fun _ _ _ hab hbc => le_trans hbc hab⟩
    exact List.Pairwise.sublist (List.take_sublist _ _)
      (List.sorted_insertionSort _ _)

/-- Claim C5: semantic `put` is an idempotent upsert on `(namespace, key)`:
calling it twice with identical arguments leaves exactly one record under the
id `"ns:k"`, and that record carries the second write's timestamp; the same
pair always overwrites and never duplicates.  The hypothesis states Chroma's
id-uniqueness for the initial collection. -/
theorem C5_semantic_put_idempotent (c : List ChromaRecord)
    (embed : String → List ℚ) (t1 t2 : ℚ) (ns k content : String)
    (src : Option String)
    (hclean : (c.filter (fun y => y.id = ns ++ ":" ++ k)).length ≤ 1) :
    (((SemanticMemoryStore.put (SemanticMemoryStore.put c embed t1 ns k content src)
          embed t2 ns k content src).filter
        (fun y => y.id = ns ++ ":" ++ k)).length = 1) ∧
    (∀ x ∈ SemanticMemoryStore.put (SemanticMemoryStore.put c embed t1 ns k content src)
        embed t2 ns k content src, x.id = ns ++ ":" ++ k →
      x = { id := ns ++ ":" ++ k, embedding := embed content, document := content
            metadata := { source := src, namespace_ := ns, key := k
                          timestamp := .parsed t2, type_ := "semantic"
                          salience := none } }) := by
  constructor
  · exact upsertRecord_filter_length _
      { id := ns ++ ":" ++ k, embedding := embed content, document := content
        metadata := { source := src, namespace_ := ns, key := k
                      timestamp := .parsed t2, type_ := "semantic", salience := none } }
      (le_of_eq (upsertRecord_filter_length c
        { id := ns ++ ":" ++ k, embedding := embed content, document := content
          metadata := { source := src, namespace_ := ns, key := k
                        timestamp := .parsed t1, type_ := "semantic", salience := none } }
        hclean))
  · intro x hx hid
    exact mem_upsertRecord_id _
      { id := ns ++ ":" ++ k, embedding := embed content, document := content
        metadata := { source := src, namespace_ := ns, key := k
                      timestamp := .parsed t2, type_ := "semantic", salience := none } }
      x hx hid

/-- Witness for C5: on the empty collection, two identical `put`s at
namespace `u`, key `f` leave exactly one record under `"u:f"` and it carries
the second timestamp. -/
theorem C5_semantic_put_idempotent_witness :
    ((((SemanticMemoryStore.put (SemanticMemoryStore.put [] (fun _ => [1]) 1 "u" "f" "hello" none)
          (fun _ => [1]) 2 "u" "f" "hello" none).filter
        (fun y => y.id = "u" ++ ":" ++ "f")).length = 1) ∧
    (∀ x ∈ SemanticMemoryStore.put (SemanticMemoryStore.put [] (fun _ => [1]) 1 "u" "f" "hello" none)
        (fun _ => [1]) 2 "u" "f" "hello" none, x.id = "u" ++ ":" ++ "f" →
      x = { id := "u" ++ ":" ++ "f", embedding := [1], document := "hello"
            metadata := { source := none, namespace_ := "u", key := "f"
                          timestamp := .parsed 2, type_ := "semantic"
                          salience := none } })) :=
  C5_semantic_put_idempotent [] (fun _ => [1]) 1 2 "u" "f" "hello" none
    (by decide)

/-- Claim C6: namespace isolation of search.  Every record returned by a
semantic or episodic search under `ns1` carries namespace metadata `ns1`;
hence for any `ns2 ≠ ns1` no returned record was written under `ns2` (a
`put` under `ns2` stamps namespace metadata `ns2`). -/
theorem C6_namespace_isolation (c : List ChromaRecord)
    (dist : List ℚ → List ℚ → ℚ) (embed : String → List ℚ) (now : ℚ)
    (ns1 ns2 q : String) (top_k : Nat) (w : ℚ) (hne : ns1 ≠ ns2) :
    (∀ m ∈ SemanticMemoryStore.search c dist embed ns1 q top_k,
      m.metadata.namespace_ = ns1 ∧ m.metadata.namespace_ ≠ ns2) ∧
    (∀ m ∈ EpisodicMemoryStore.search c dist embed now ns1 q top_k w,
      m.metadata.namespace_ = ns1 ∧ m.metadata.namespace_ ≠ ns2) := by
  constructor
  · intro m hm
    unfold SemanticMemoryStore.search at hm
    obtain ⟨r, hr, hrm⟩ := List.mem_map.mp hm
    have : m.metadata = r.metadata := by rw [← hrm]
    rw [this]
    have hns := mem_chromaQuery_namespace c dist (embed q) top_k ns1 r hr
    exact ⟨hns, fun hcon => hne (hns ▸ hcon ▸ rfl)⟩
  · intro m hm
    unfold EpisodicMemoryStore.search at hm
    have hm1 := (List.take_sublist _ _).subset hm
    rw [List.mem_insertionSort] at hm1
    obtain ⟨r, hr, hrm⟩ := List.mem_map.mp hm1
    have : m.metadata = r.metadata := by rw [← hrm]
    rw [this]
    have hns := mem_chromaQuery_namespace c dist (embed q) (top_k * 2) ns1 r hr
    exact ⟨hns, fun hcon => hne (hns ▸ hcon ▸ rfl)⟩

/-- A two-record collection holding one record in namespace `a` and one in
namespace `b`, used to witness namespace isolation. -/
def demoStoreC6 : List ChromaRecord :=
  [ { id := "a:1", embedding := [1], document := "alpha fact"
      metadata := { source := none, namespace_ := "a", key := "1"
                    timestamp := .parsed 0, type_ := "semantic"
                    salience := none } },
    { id := "b:1", embedding := [2], document := "beta fact"
      metadata := { source := none, namespace_ := "b", key := "1"
                    timestamp := .parsed 0, type_ := "semantic"
                    salience := none } } ]

/-- Witness for C6: searches of `demoStoreC6` under namespace `a` only return
the `a` record, never the `b` record. -/
theorem C6_namespace_isolation_witness :
    (∀ m ∈ SemanticMemoryStore.search demoStoreC6 (fun _ _ => 0) (fun _ => [1]) "a" "q" 5,
      m.metadata.namespace_ = "a" ∧ m.metadata.namespace_ ≠ "b") ∧
    (∀ m ∈ EpisodicMemoryStore.search demoStoreC6 (fun _ _ => 0) (fun _ => [1]) 0 "a" "q" 5 (3 / 10),
      m.metadata.namespace_ = "a" ∧ m.metadata.namespace_ ≠ "b") :=
  C6_namespace_isolation demoStoreC6 (fun _ _ => 0) (fun _ => [1]) 0 "a" "b" "q" 5
    (3 / 10) (by decide)

/-! ## Theorems for C4 and C9 -/

/-- Claim C4: whenever `procedural_guard` runs on a state whose `tool_result`
contains a ticket matched by an escalation rule, its output sets
`selected_procedure` to `escalated_support` regardless of the previously
selected procedure (only one call to `get_escalation_decision` is made, whose
first matching rule wins); when no rule matches or no ticket result is
present, the returned dictionary omits `selected_procedure`, so the merge
leaves it unchanged; and the only transition the guard ever forces is into
`escalated_support`, so a state already in `escalated_support` stays there —
escalation is monotonic within a session. -/
theorem C4_escalation_override_monotonic (state : GuardState)
    (llm_plan : Option GuardPlan) (now : ℚ) :
    ((guardEscalation state now).isSome = true →
      (procedural_guard state llm_plan now).selected_procedure
        = some "escalated_support") ∧
    (guardEscalation state now = none →
      (procedural_guard state llm_plan now).selected_procedure = none ∧
      (applyGuardOutput state (procedural_guard state llm_plan now)).selected_procedure
        = state.selected_procedure) ∧
    (state.selected_procedure = some "escalated_support" →
      (applyGuardOutput state (procedural_guard state llm_plan now)).selected_procedure
        = some "escalated_support") := by
  cases h : guardEscalation state now with
  | some info =>
    refine ⟨fun _ => ?_, fun hn => by exact absurd hn (by simp), fun hs => ?_⟩
    · simp [procedural_guard, h]
    · simp [procedural_guard, applyGuardOutput, h]
  | none =>
    refine ⟨fun hs => by exact absurd hs (by simp), fun _ => ⟨?_, ?_⟩, fun hs => ?_⟩
    · simp [procedural_guard, h]
    · simp [procedural_guard, applyGuardOutput, h]
    · simp [procedural_guard, applyGuardOutput, h, hs]

/-- Witness for C4: a `Critical` ticket in the tool result forces
`escalated_support` over a previous `standard_support` selection, and a state
already in `escalated_support` with no ticket result stays in
`escalated_support`. -/
theorem C4_escalation_override_monotonic_witness :
    ((procedural_guard
        ⟨some "standard_support",
         some ⟨some ⟨some "Critical", none, .missing, none, none⟩, none, none⟩⟩
        none 0).selected_procedure = some "escalated_support") ∧
    ((applyGuardOutput ⟨some "escalated_support", none⟩
        (procedural_guard ⟨some "escalated_support", none⟩ none 0)).selected_procedure
      = some "escalated_support") :=
  ⟨(C4_escalation_override_monotonic
      ⟨some "standard_support",
       some ⟨some ⟨some "Critical", none, .missing, none, none⟩, none, none⟩⟩
      none 0).1 (by decide),
   (C4_escalation_override_monotonic ⟨some "escalated_support", none⟩ none 0).2.2
      rfl⟩

/-- The first element of a non-empty list, as `headD` returns it, is a member
of the list. -/
theorem headD_mem_of_ne_nil (l : List String) (d : String) (h : l ≠ []) :
    l.headD d ∈ l := by
  cases l with
  | nil => exact absurd rfl h
  | cons a t => exact List.mem_cons_self a t

/-- The tool the guard's selection block emits always belongs to the allowed
tools when that list is non-empty. -/
theorem guardPlanTool_mem (llm_plan : Option GuardPlan)
    (allowed_tools : List String) (h : allowed_tools ≠ []) :
    guardPlanTool llm_plan allowed_tools ∈ allowed_tools := by
  cases llm_plan with
  | none =>
    simp only [guardPlanTool, if_pos h]
    exact headD_mem_of_ne_nil _ _ h
  | some plan =>
    simp only [guardPlanTool]
    by_cases hmem : plan.tool.getD "" ∈ allowed_tools
    · rw [if_pos hmem]; exact hmem
    · rw [if_neg hmem, if_pos h]
      exact headD_mem_of_ne_nil _ _ h

/-- Claim C9: for every LLM reply (well-formed, malformed, or naming a tool
outside the set), provided the active procedure's `allowed_tools` list is
non-empty, the tool `procedural_guard` emits as `planner_tool` is a member of
that procedure's `allowed_tools`: an out-of-set or unparsable selection is
replaced, never passed through. -/
theorem C9_planner_tool_allowed (state : GuardState)
    (llm_plan : Option GuardPlan) (now : ℚ)
    (hne : ((PROCEDURES (state.selected_procedure.getD "standard_support")).getD
        standard_support_procedure).allowed_tools ≠ []) :
    (procedural_guard state llm_plan now).planner_tool ∈
      ((PROCEDURES (state.selected_procedure.getD "standard_support")).getD
        standard_support_procedure).allowed_tools := by
  have hpt : (procedural_guard state llm_plan now).planner_tool
      = guardPlanTool llm_plan
          ((PROCEDURES (state.selected_procedure.getD "standard_support")).getD
            standard_support_procedure).allowed_tools := by
    cases h : guardEscalation state now <;> simp [procedural_guard, h]
  rw [hpt]
  exact guardPlanTool_mem llm_plan _ hne

/-- Witness for C9: under `quick_resolution` (allowed tools
`["lookup_ticket"]`), an LLM reply selecting the out-of-set `create_ticket`
is replaced by a member of the allowed list. -/
theorem C9_planner_tool_allowed_witness :
    (procedural_guard ⟨some "quick_resolution", none⟩
        (some ⟨some "create_ticket", none⟩) 0).planner_tool ∈
      ((PROCEDURES ((some "quick_resolution" : Option String).getD "standard_support")).getD
        standard_support_procedure).allowed_tools :=
  C9_planner_tool_allowed ⟨some "quick_resolution", none⟩
    (some ⟨some "create_ticket", none⟩) 0 (by decide)

/-! ## Helper lemmas about semantic and episodic puts -/

/-- After a semantic `put` there is exactly one record under the written id,
provided the collection held at most one before. -/
theorem semantic_put_filter_length (c : List ChromaRecord)
    (embed : String → List ℚ) (now : ℚ) (ns k content : String)
    (src : Option String)
    (h : (c.filter (fun y => y.id = ns ++ ":" ++ k)).length ≤ 1) :
    ((SemanticMemoryStore.put c embed now ns k content src).filter
        (fun y => y.id = ns ++ ":" ++ k)).length = 1 :=
  upsertRecord_filter_length c
    { id := ns ++ ":" ++ k, embedding := embed content, document := content
      metadata := { source := src, namespace_ := ns, key := k
                    timestamp := .parsed now, type_ := "semantic"
                    salience := none } } h

/-- A record of a semantic `put` result carrying the written id holds the
written content. -/
theorem semantic_put_mem_id (c : List ChromaRecord)
    (embed : String → List ℚ) (now : ℚ) (ns k content : String)
    (src : Option String) (r : ChromaRecord)
    (hr : r ∈ SemanticMemoryStore.put c embed now ns k content src)
    (hid : r.id = ns ++ ":" ++ k) : r.document = content := by
  have h := mem_upsertRecord_id c
    { id := ns ++ ":" ++ k, embedding := embed content, document := content
      metadata := { source := src, namespace_ := ns, key := k
                    timestamp := .parsed now, type_ := "semantic"
                    salience := none } } r hr hid
  rw [h]

/-- A record of a semantic `put` result was stored before or holds the
written content. -/
theorem mem_semantic_put (c : List ChromaRecord)
    (embed : String → List ℚ) (now : ℚ) (ns k content : String)
    (src : Option String) (r : ChromaRecord)
    (hr : r ∈ SemanticMemoryStore.put c embed now ns k content src) :
    r ∈ c ∨ r.document = content := by
  rcases mem_upsertRecord c
    { id := ns ++ ":" ++ k, embedding := embed content, document := content
      metadata := { source := src, namespace_ := ns, key := k
                    timestamp := .parsed now, type_ := "semantic"
                    salience := none } } r hr with h | h
  · right; rw [h]
  · left; exact h

/-- A record of a semantic `put` result whose id differs from the written id
was stored before. -/
theorem mem_semantic_put_ne_id (c : List ChromaRecord)
    (embed : String → List ℚ) (now : ℚ) (ns k content : String)
    (src : Option String) (r : ChromaRecord)
    (hr : r ∈ SemanticMemoryStore.put c embed now ns k content src)
    (hid : r.id ≠ ns ++ ":" ++ k) : r ∈ c := by
  rcases mem_upsertRecord c
    { id := ns ++ ":" ++ k, embedding := embed content, document := content
      metadata := { source := src, namespace_ := ns, key := k
                    timestamp := .parsed now, type_ := "semantic"
                    salience := none } } r hr with h | h
  · exact absurd (by rw [h]) hid
  · exact h

/-- A record of an episodic `put` result was stored before or holds the
written content. -/
theorem mem_episodic_put (c : List ChromaRecord)
    (embed : String → List ℚ) (now : ℚ) (ns k content : String)
    (src : Option String) (sal : ℚ) (r : ChromaRecord)
    (hr : r ∈ EpisodicMemoryStore.put c embed now ns k content src sal) :
    r ∈ c ∨ r.document = content := by
  rcases mem_upsertRecord c
    { id := ns ++ ":" ++ k, embedding := embed content, document := content
      metadata := { source := src, namespace_ := ns, key := k
                    timestamp := .parsed now, type_ := "episodic"
                    salience := some sal } } r hr with h | h
  · right; rw [h]
  · left; exact h

/-! ## Helper lemmas about the write loops -/

/-- The semantic write loop counts exactly the facts whose stripped text is
longer than 10 characters. -/
theorem semanticWriteLoop_count (embed : String → List ℚ) (now : ℚ)
    (ns : String) (semKey : Nat → String → String)
    (l : List (Nat × String)) (store : List ChromaRecord) (count : Nat) :
    (semanticWriteLoop embed now ns semKey l store count).2
      = count + (l.filter (fun p => (pyStrip p.2).length > 10)).length := by
  induction l generalizing store count with
  | nil => simp [semanticWriteLoop]
  | cons p rest ih =>
    rcases p with ⟨i, fact⟩
    by_cases hp : (pyStrip fact).length > 10
    · simp only [semanticWriteLoop, if_pos hp, ih, List.filter_cons]
      simp [hp]
      omega
    · simp only [semanticWriteLoop, if_neg hp, ih, List.filter_cons]
      simp [hp]

/-- The episodic write loop counts exactly the experiences whose stripped
text is longer than 10 characters. -/
theorem episodicWriteLoop_count (embed : String → List ℚ) (now : ℚ)
    (ns : String) (epiKey : Nat → String) (sal : ℚ)
    (l : List (Nat × String)) (store : List ChromaRecord) (count : Nat) :
    (episodicWriteLoop embed now ns epiKey sal l store count).2
      = count + (l.filter (fun p => (pyStrip p.2).length > 10)).length := by
  induction l generalizing store count with
  | nil => simp [episodicWriteLoop]
  | cons p rest ih =>
    rcases p with ⟨i, fact⟩
    by_cases hp : (pyStrip fact).length > 10
    · simp only [episodicWriteLoop, if_pos hp, ih, List.filter_cons]
      simp [hp]
      omega
    · simp only [episodicWriteLoop, if_neg hp, ih, List.filter_cons]
      simp [hp]

/-- Every record the semantic write loop leaves in the store was already
there or is one of the candidates whose stripped text beats the length
gate. -/
theorem semanticWriteLoop_mem (embed : String → List ℚ) (now : ℚ)
    (ns : String) (semKey : Nat → String → String)
    (l : List (Nat × String)) (store : List ChromaRecord) (count : Nat)
    (r : ChromaRecord)
    (hr : r ∈ (semanticWriteLoop embed now ns semKey l store count).1) :
    r ∈ store ∨ (r.document ∈ l.map Prod.snd ∧ (pyStrip r.document).length > 10) := by
  induction l generalizing store count with
  | nil =>
    simp only [semanticWriteLoop] at hr
    exact .inl hr
  | cons p rest ih =>
    rcases p with ⟨i, fact⟩
    by_cases hp : (pyStrip fact).length > 10
    · simp only [semanticWriteLoop, if_pos hp] at hr
      rcases ih _ _ hr with hin | hnew
      · rcases mem_semantic_put store embed now ns (semKey i fact) fact none r hin with
          hstore | hdoc
        · exact .inl hstore
        · right
          refine ⟨?_, ?_⟩
          · rw [hdoc]; simp
          · rw [hdoc]; exact hp
      · right
        exact ⟨by simp only [List.map_cons]; exact List.mem_cons_of_mem _ hnew.1, hnew.2⟩
    · simp only [semanticWriteLoop, if_neg hp] at hr
      rcases ih _ _ hr with hin | hnew
      · exact .inl hin
      · right
        exact ⟨by simp only [List.map_cons]; exact List.mem_cons_of_mem _ hnew.1, hnew.2⟩

/-- Every record the episodic write loop leaves in the store was already
there or is one of the candidates whose stripped text beats the length
gate. -/
theorem episodicWriteLoop_mem (embed : String → List ℚ) (now : ℚ)
    (ns : String) (epiKey : Nat → String) (sal : ℚ)
    (l : List (Nat × String)) (store : List ChromaRecord) (count : Nat)
    (r : ChromaRecord)
    (hr : r ∈ (episodicWriteLoop embed now ns epiKey sal l store count).1) :
    r ∈ store ∨ (r.document ∈ l.map Prod.snd ∧ (pyStrip r.document).length > 10) := by
  induction l generalizing store count with
  | nil =>
    simp only [episodicWriteLoop] at hr
    exact .inl hr
  | cons p rest ih =>
    rcases p with ⟨i, fact⟩
    by_cases hp : (pyStrip fact).length > 10
    · simp only [episodicWriteLoop, if_pos hp] at hr
      rcases ih _ _ hr with hin | hnew
      · rcases mem_episodic_put store embed now ns (epiKey i) fact none sal r hin with
          hstore | hdoc
        · exact .inl hstore
        · right
          refine ⟨?_, ?_⟩
          · rw [hdoc]; simp
          · rw [hdoc]; exact hp
      · right
        exact ⟨by simp only [List.map_cons]; exact List.mem_cons_of_mem _ hnew.1, hnew.2⟩
    · simp only [episodicWriteLoop, if_neg hp] at hr
      rcases ih _ _ hr with hin | hnew
      · exact .inl hin
      · right
        exact ⟨by simp only [List.map_cons]; exact List.mem_cons_of_mem _ hnew.1, hnew.2⟩

/-- Filtering the enumerated list on the second component preserves the
filtered length. -/
theorem enumFrom_filter_strip_length (n : Nat) (l : List String) :
    ((List.enumFrom n l).filter (fun q => (pyStrip q.2).length > 10)).length
      = (l.filter (fun f => (pyStrip f).length > 10)).length := by
  induction l generalizing n with
  | nil => rfl
  | cons a t ih =>
    by_cases ha : (pyStrip a).length > 10 <;>
      simp [List.enumFrom, List.filter_cons, ha, ih]

/-- `enumFrom_filter_strip_length` at `List.enum`. -/
theorem enum_filter_strip_length (l : List String) :
    (l.enum.filter (fun q => (pyStrip q.2).length > 10)).length
      = (l.filter (fun f => (pyStrip f).length > 10)).length :=
  enumFrom_filter_strip_length 0 l

/-! ## Theorems for C7 and C8 -/

/-- Claim C7 is contradicted by the code: when the gate passes and the
extraction reply cannot be parsed as JSON, the node does not return
normally — the `except: pass` swallows the JSON error, but the `return`
statement reads `semantic_count`, which is only assigned inside the `try`
block after `json.loads`, so CPython raises an uncaught `UnboundLocalError`.
Evaluated at a concrete failing input: an explicit trigger (created ticket)
passes the gate and the extraction reply is unparsable. -/
theorem C7_parse_failure_uncaught :
    salience_gated_memory_write (some ⟨none, some "998880", some "created"⟩)
        ⟨0, 0, 0, 0⟩ none [] [] (fun _ => [1]) 0 "user_123"
        (fun _ _ => "k") (fun _ => "e")
      = .error "UnboundLocalError: local variable semantic_count referenced before assignment" :=
  rfl

/-- Counterexample to claim C8: the write gate in the code is
`len(fact.strip()) > 10`, so a candidate of stripped length exactly 10
characters — "at least 10 characters", which the claim says is written — is
discarded: the stores stay empty and the semantic count is 0. -/
theorem C8_length_threshold_counterexample :
    (pyStrip "ABCDEFGHIJ").length = 10 ∧
    salience_gated_memory_write (some ⟨none, some "998880", some "created"⟩)
        ⟨0, 0, 0, 0⟩ (some ⟨["ABCDEFGHIJ"], []⟩) [] [] (fun _ => [1]) 0
        "user_123" (fun _ _ => "k") (fun _ => "e")
      = .ok ([], [],
          { salience_scores := ⟨0, 0, 0, 0⟩, memory_written := true
            semantic_written_count := some 0
            episodic_written_count := some 0 }) :=
  ⟨by decide, rfl⟩

/-- Claim C8 as amended: in the extraction dual-write, a candidate semantic
fact or episodic experience is discarded as noise exactly when its stripped
text is at most 10 characters long; every candidate of stripped length at
least 11 characters is written to its store, and no other new record
appears. -/
theorem C8_length_threshold_amended (tool_result : Option ToolResult)
    (scores : SalienceScores) (sem epi : List String)
    (semStore epiStore : List ChromaRecord) (embed : String → List ℚ)
    (now : ℚ) (ns : String) (semKey : Nat → String → String)
    (epiKey : Nat → String)
    (hgate : should_write scores (6 / 10) (explicitTrigger tool_result) = true) :
    ∃ semStore2 epiStore2,
      salience_gated_memory_write tool_result scores (some ⟨sem, epi⟩)
          semStore epiStore embed now ns semKey epiKey
        = .ok (semStore2, epiStore2,
            { salience_scores := scores, memory_written := true
              semantic_written_count :=
                some ((sem.filter (fun f => (pyStrip f).length > 10)).length)
              episodic_written_count :=
                some ((epi.filter (fun f => (pyStrip f).length > 10)).length) }) ∧
      (∀ r ∈ semStore2,
        r ∈ semStore ∨ (r.document ∈ sem ∧ (pyStrip r.document).length > 10)) ∧
      (∀ r ∈ epiStore2,
        r ∈ epiStore ∨ (r.document ∈ epi ∧ (pyStrip r.document).length > 10)) := by
  have hcond : ¬ (should_write scores (6 / 10) (explicitTrigger tool_result) = false) := by
    simp [hgate]
  refine ⟨(semanticWriteLoop embed now ns semKey sem.enum semStore 0).1,
    (episodicWriteLoop embed now ns epiKey scores.importance epi.enum epiStore 0).1,
    ?_, ?_, ?_⟩
  · unfold salience_gated_memory_write
    rw [if_neg hcond]
    show Except.ok
        ((semanticWriteLoop embed now ns semKey sem.enum semStore 0).1,
         (episodicWriteLoop embed now ns epiKey scores.importance epi.enum epiStore 0).1,
         ({ salience_scores := scores, memory_written := true
            semantic_written_count :=
              some (semanticWriteLoop embed now ns semKey sem.enum semStore 0).2
            episodic_written_count :=
              some (episodicWriteLoop embed now ns epiKey scores.importance
                epi.enum epiStore 0).2 } : MemoryWriteOutput)) = _
    rw [semanticWriteLoop_count, episodicWriteLoop_count,
      enum_filter_strip_length, enum_filter_strip_length]
    simp
  · intro r hr
    rcases semanticWriteLoop_mem embed now ns semKey sem.enum semStore 0 r hr with
      h | h
    · exact .inl h
    · right
      rw [List.enum_map_snd] at h
      exact h
  · intro r hr
    rcases episodicWriteLoop_mem embed now ns epiKey scores.importance epi.enum
        epiStore 0 r hr with h | h
    · exact .inl h
    · right
      rw [List.enum_map_snd] at h
      exact h

/-- Witness for the amended C8: with the gate passed by an explicit trigger,
of the two semantic candidates only the one longer than 10 stripped
characters is counted as written, and every new record holds such a
candidate. -/
theorem C8_length_threshold_amended_witness :
    ∃ semStore2 epiStore2,
      salience_gated_memory_write (some ⟨none, some "998880", some "created"⟩)
          ⟨0, 0, 0, 0⟩
          (some ⟨["Customer has Archer-AX55 router in bedroom", "short"], []⟩)
          [] [] (fun _ => [1]) 0 "user_123" (fun _ _ => "k") (fun _ => "e")
        = .ok (semStore2, epiStore2,
            { salience_scores := ⟨0, 0, 0, 0⟩, memory_written := true
              semantic_written_count :=
                some ((["Customer has Archer-AX55 router in bedroom", "short"].filter
                  (fun f => (pyStrip f).length > 10)).length)
              episodic_written_count :=
                some ((([] : List String).filter
                  (fun f => (pyStrip f).length > 10)).length) }) ∧
      (∀ r ∈ semStore2,
        r ∈ ([] : List ChromaRecord) ∨
          (r.document ∈ ["Customer has Archer-AX55 router in bedroom", "short"] ∧
            (pyStrip r.document).length > 10)) ∧
      (∀ r ∈ epiStore2,
        r ∈ ([] : List ChromaRecord) ∨
          (r.document ∈ ([] : List String) ∧ (pyStrip r.document).length > 10)) :=
  C8_length_threshold_amended (some ⟨none, some "998880", some "created"⟩)
    ⟨0, 0, 0, 0⟩ ["Customer has Archer-AX55 router in bedroom", "short"] []
    [] [] (fun _ => [1]) 0 "user_123" (fun _ _ => "k") (fun _ => "e") rfl

/-! ## Theorems for C10 -/

/-- Folding semantic `put`s of a non-empty enumerated fact list under one
shared key leaves exactly one record under that key, holding the last fact;
records under any other id are untouched. -/
theorem putFold_same_key (embed : String → List ℚ) (now : ℚ) (ns key : String)
    (src : Option String) :
    ∀ (l : List (Nat × String)) (st : List ChromaRecord), l ≠ [] →
      (st.filter (fun r => r.id = ns ++ ":" ++ key)).length ≤ 1 →
      (((l.foldl (fun acc p =>
            SemanticMemoryStore.put acc embed now ns key p.2 src) st).filter
          (fun r => r.id = ns ++ ":" ++ key)).length = 1) ∧
      (∀ r ∈ l.foldl (fun acc p =>
            SemanticMemoryStore.put acc embed now ns key p.2 src) st,
        (r.id = ns ++ ":" ++ key → (l.map Prod.snd).getLast? = some r.document) ∧
        (r.id ≠ ns ++ ":" ++ key → r ∈ st)) := by
  intro l
  induction l with
  | nil => intro st h; exact absurd rfl h
  | cons p rest ih =>
    intro st _ hclean
    cases rest with
    | nil =>
      simp only [List.foldl_cons, List.foldl_nil]
      constructor
      · exact semantic_put_filter_length st embed now ns key p.2 src hclean
      · intro r hr
        constructor
        · intro hid
          have hdoc := semantic_put_mem_id st embed now ns key p.2 src r hr hid
          simp [hdoc]
        · intro hid
          exact mem_semantic_put_ne_id st embed now ns key p.2 src r hr hid
    | cons q rest2 =>
      have h1 : ((SemanticMemoryStore.put st embed now ns key p.2 src).filter
          (fun r => r.id = ns ++ ":" ++ key)).length = 1 :=
        semantic_put_filter_length st embed now ns key p.2 src hclean
      have ihr := ih (SemanticMemoryStore.put st embed now ns key p.2 src)
        (by simp) (le_of_eq h1)
      simp only [List.foldl_cons]
      constructor
      · exact ihr.1
      · intro r hr
        constructor
        · intro hid
          have hlast := (ihr.2 r hr).1 hid
          simp only [List.map_cons] at hlast ⊢
          rw [List.getLast?_cons_cons]
          exact hlast
        · intro hid
          have hr' := (ihr.2 r hr).2 hid
          exact mem_semantic_put_ne_id st embed now ns key p.2 src r hr' hid

/-- Claim C10: when `conflict_resolution` runs with a tool result containing
a ticket and a non-empty `ticket_id`, every verified fact is upserted under
the single deterministic key `ticket_{ticket_id}_verified`, so each upsert
overwrites the previous one: afterwards exactly one record exists under that
id, holding the last fact derived — the status fact when the ticket has a
truthy status — and the device and customer-name facts do not survive as
separate records (any record under another id was already stored). -/
theorem C10_conflict_resolution_single_key (st : List ChromaRecord)
    (embed : String → List ℚ) (now : ℚ) (ns : String) (ticket : Ticket)
    (tid : String) (trstatus : Option String) (uuidKey : Nat → String)
    (htid : tid ≠ "")
    (hclean : (st.filter
        (fun r => r.id = ns ++ ":" ++ ("ticket_" ++ tid ++ "_verified"))).length ≤ 1) :
    (((conflict_resolution st embed now ns
          (some ⟨some ticket, some tid, trstatus⟩) uuidKey).filter
        (fun r => r.id = ns ++ ":" ++ ("ticket_" ++ tid ++ "_verified"))).length = 1) ∧
    (∀ r ∈ conflict_resolution st embed now ns
        (some ⟨some ticket, some tid, trstatus⟩) uuidKey,
      (r.id = ns ++ ":" ++ ("ticket_" ++ tid ++ "_verified") →
        (verifiedFacts ticket tid).getLast? = some r.document) ∧
      (r.id ≠ ns ++ ":" ++ ("ticket_" ++ tid ++ "_verified") → r ∈ st)) ∧
    (∀ s, ticket.status = some s → s ≠ "" →
      (verifiedFacts ticket tid).getLast?
        = some ("Ticket " ++ tid ++ " status: " ++ s)) := by
  have hcr : conflict_resolution st embed now ns
      (some ⟨some ticket, some tid, trstatus⟩) uuidKey
      = (verifiedFacts ticket tid).enum.foldl
          (fun acc p => SemanticMemoryStore.put acc embed now ns
            ("ticket_" ++ tid ++ "_verified") p.2 (some "tool_verified")) st := by
    simp [conflict_resolution, htid]
  have hfne : verifiedFacts ticket tid ≠ [] := by
    simp [verifiedFacts, htid]
  have henne : (verifiedFacts ticket tid).enum ≠ [] := by
    intro h
    apply hfne
    have h0 := congrArg List.length h
    rw [List.enum_length] at h0
    exact List.eq_nil_of_length_eq_zero h0
  have hmain := putFold_same_key embed now ns ("ticket_" ++ tid ++ "_verified")
    (some "tool_verified") (verifiedFacts ticket tid).enum st henne hclean
  refine ⟨?_, ?_, ?_⟩
  · rw [hcr]
    exact hmain.1
  · intro r hr
    rw [hcr] at hr
    constructor
    · intro hid
      have hlast := (hmain.2 r hr).1 hid
      rwa [List.enum_map_snd] at hlast
    · intro hid
      exact (hmain.2 r hr).2 hid
  · intro s hs hsne
    simp [verifiedFacts, hs, hsne, List.getLast?_append]

/-- Witness for C10: on the empty store, a tool result for ticket `998880`
with device, name and status leaves exactly one verified record, holding the
status fact. -/
theorem C10_conflict_resolution_single_key_witness :
    (((conflict_resolution [] (fun _ => [1]) 0 "user_123"
          (some ⟨some ⟨none, some "Open", .missing, some "Archer-AX55", some "Cody"⟩,
            some "998880", none⟩) (fun _ => "u")).filter
        (fun r => r.id = "user_123" ++ ":" ++ ("ticket_" ++ "998880" ++ "_verified"))).length = 1) ∧
    (∀ r ∈ conflict_resolution [] (fun _ => [1]) 0 "user_123"
        (some ⟨some ⟨none, some "Open", .missing, some "Archer-AX55", some "Cody"⟩,
          some "998880", none⟩) (fun _ => "u"),
      (r.id = "user_123" ++ ":" ++ ("ticket_" ++ "998880" ++ "_verified") →
        (verifiedFacts ⟨none, some "Open", .missing, some "Archer-AX55", some "Cody"⟩
          "998880").getLast? = some r.document) ∧
      (r.id ≠ "user_123" ++ ":" ++ ("ticket_" ++ "998880" ++ "_verified") →
        r ∈ ([] : List ChromaRecord))) ∧
    (∀ s, (⟨none, some "Open", .missing, some "Archer-AX55", some "Cody"⟩ : Ticket).status
        = some s → s ≠ "" →
      (verifiedFacts ⟨none, some "Open", .missing, some "Archer-AX55", some "Cody"⟩
        "998880").getLast? = some ("Ticket " ++ "998880" ++ " status: " ++ s)) :=
  C10_conflict_resolution_single_key [] (fun _ => [1]) 0 "user_123"
    ⟨none, some "Open", .missing, some "Archer-AX55", some "Cody"⟩ "998880" none
    (fun _ => "u") (by decide) (by decide)

end AgenticMemory
